import Mathlib

/-!
Verification of the worktree / merge engine of `devflow.py` (class
`WorktreeManager`).  The Python code drives git through `subprocess.run`;
we embed it shallowly: every external command the code issues is recorded
in an explicit trace (`Cmd`), and the observable answers of the external
world (git exit codes / stdout, filesystem probes, interactive answers)
are supplied by an environment record (`Env`).  Pure computations
(porcelain parsing, string matching, candidate filtering) are translated
directly from the source.
-/

set_option maxHeartbeats 1000000

namespace DevFlow

/-- Prefix test on character lists (used to embed Python's
`str.startswith` / substring membership without library dependence). -/
def subListAt : List Char → List Char → Bool
  | [], _ => true
  | _ :: _, [] => false
  | a :: as, b :: bs => a = b && subListAt as bs

/-- Does `pat` occur as a contiguous sub-list of the second argument?
Embeds Python's `pat in s` on strings. -/
def hasSubList (pat : List Char) : List Char → Bool
  | [] => pat.isEmpty
  | b :: bs => subListAt pat (b :: bs) || hasSubList pat bs

/-- Python's `pat in s` substring test. -/
def strContains (s pat : String) : Bool :=
  hasSubList pat.toList s.toList

/-- Python's `s.startswith(pre)`. -/
def pyStartsWith (s pre : String) : Bool :=
  subListAt pre.toList s.toList

/-- Python's character slicing `s[n:]` (all our prefixes are ASCII, so
`split(sep, 1)[1]` after a `startswith` check is a plain drop). -/
def pyDrop (s : String) (n : Nat) : String :=
  String.mk (s.toList.drop n)

/-- Split a character list at every occurrence of `sep` (Python
`s.split(sep)` semantics: `"".split` gives one empty field). -/
def splitChar (sep : Char) : List Char → List (List Char)
  | [] => [[]]
  | a :: as =>
    match splitChar sep as with
    | [] => if a = sep then [[], []] else [[a]]
    | g :: gs => if a = sep then [] :: g :: gs else (a :: g) :: gs

/-- Python's `s.split(sep)` for a one-character separator. -/
def pySplit (s : String) (sep : Char) : List String :=
  (splitChar sep s.toList).map String.mk

/-- Python's `s.strip()` (whitespace from both ends). -/
def pyStrip (s : String) : String :=
  String.mk (((s.toList.dropWhile Char.isWhitespace).reverse.dropWhile
    Char.isWhitespace).reverse)

/-- One replacement pass with explicit fuel (the fuel is the length of
the scanned list, so every occurrence is replaced, left to right,
non-overlapping — Python `str.replace` semantics for a non-empty
pattern). -/
def replChars (pat rep : List Char) : Nat → List Char → List Char
  | _, [] => []
  | 0, s => s
  | n + 1, a :: as =>
    if subListAt pat (a :: as) && !pat.isEmpty then
      rep ++ replChars pat rep n (as.drop (pat.length - 1))
    else
      a :: replChars pat rep n as

/-- Python's `s.replace(pat, rep)` (for the non-empty patterns the

source uses). -/
def pyReplace (s pat rep : String) : String :=
  String.mk (replChars pat.toList rep.toList s.toList.length s.toList)

/-- Python's `s.lower()` (ASCII, which is all the source compares). -/
def pyLower (s : String) : String :=
  String.mk (s.toList.map Char.toLower)

/-- Digit-string reading used by Python's `int()`. -/
def readNatChars : List Char → Option Nat
  | [] => none
  | cs =>
    cs.foldl (fun acc c =>
      acc.bind fun n => if c.isDigit then some (n * 10 + (c.toNat - 48)) else none)
      (some 0)

/-- Python's `int(s)` on an already-stripped string: `none` is the
`ValueError`. -/
def pyToInt : String → Option Int
  | s =>
    match s.toList with
    | '-' :: rest => (readNatChars rest).map fun n => -(n : Int)
    | cs => (readNatChars cs).map fun n => (n : Int)

/-! ### Porcelain worktree-list parsing (`WorktreeManager.get_worktrees`, first loop) -/

/-- One raw record accumulated by the porcelain parsing loop: the Python
dict `current_wt` with its possible keys `path`, `head`, `branch`,
`detached`. -/
structure RawWt where
  path : Option String := none
  head : Option String := none
  branch : Option String := none
  detached : Bool := false
  deriving Repr, DecidableEq

/-- Truthiness of the Python dict `current_wt` (`if current_wt:`):
the dict is empty iff no key has been set. -/
def RawWt.isEmpty (w : RawWt) : Bool :=
  w.path.isNone && w.head.isNone && w.branch.isNone && !w.detached

/-- One iteration of the parsing loop of `get_worktrees` over a line of
`git worktree list --porcelain` output. -/
def parseStep (acc : List RawWt × RawWt) (line : String) : List RawWt × RawWt :=
  let (wts, cur) := acc
  if pyStartsWith line "worktree " then
    (if cur.isEmpty then wts else wts ++ [cur], { path := some (pyDrop line 9) })
  else if pyStartsWith line "HEAD " then
    (wts, { cur with head := some (pyDrop line 5) })
  else if pyStartsWith line "branch " then
    (wts, { cur with branch := some (pyReplace (pyDrop line 7) "refs/heads/" "") })
  else if pyStartsWith line "detached" then
    (wts, { cur with detached := true })
  else if line == "" then
    (if cur.isEmpty then wts else wts ++ [cur], {})
  else
    (wts, cur)

/-- The trailing `if current_wt: worktrees.append(current_wt)` after the
loop. -/
def finalizeParse (acc : List RawWt × RawWt) : List RawWt :=
  if acc.2.isEmpty then acc.1 else acc.1 ++ [acc.2]

/-- The parsing phase of `get_worktrees`:
`result.stdout.strip().split('\n')` fed through the line loop. -/
def parse_worktrees (stdout : String) : List RawWt :=
  finalizeParse ((pySplit (pyStrip stdout) '\n').foldl parseStep ([], {}))

/-- The `worktree ` header paths occurring in a list of porcelain lines. -/
def headersOf (lines : List String) : List String :=
  lines.filterMap fun l =>
    if pyStartsWith l "worktree " then some (pyDrop l 9) else none

/-- Well-formedness automaton for porcelain output: an attribute line
(`HEAD `/`branch `/`detached`) may only occur inside a block opened by a
`worktree ` header.  State: (everything fine so far, currently inside a
block). -/
def wfStep (st : Bool × Bool) (line : String) : Bool × Bool :=
  if pyStartsWith line "worktree " then (st.1, true)
  else if pyStartsWith line "HEAD " then (st.1 && st.2, st.2)
  else if pyStartsWith line "branch " then (st.1 && st.2, st.2)
  else if pyStartsWith line "detached" then (st.1 && st.2, st.2)
  else if line == "" then (st.1, false)
  else st

/-- A porcelain dump is well formed when every attribute line lies inside
a header-opened block (true of everything `git worktree list --porcelain`
prints). -/
def wfLines (lines : List String) : Bool :=
  (lines.foldl wfStep (true, false)).1

/-! ### External commands, warnings, interactive script -/

/-- Every external command `WorktreeManager` issues, with the arguments
that matter.  Constructors mirror the `subprocess.run` call sites. -/
inductive Cmd where
  | worktreeList                         -- git worktree list --porcelain
  | configGet (branch : String)          -- git config git-town.branch.<b>.parent
  | showRef (name : String)              -- git show-ref refs/heads/<name>
  | logRange (parent branch : String)    -- git log parent..branch --oneline --graph
  | diffRange (parent branch : String)   -- git diff parent...branch --name-status
  | branchCreate (name base : String)    -- git branch <name> <base>
  | checkout (branch : String)           -- git checkout <branch>
  | mergeNoFF (branch : String)          -- git merge <branch> --no-ff
  | conflictFilesQuery                   -- git diff --name-only --diff-filter=U
  | mergetool                            -- git mergetool
  | commitNoEdit                         -- git commit --no-edit
  | shellSession                         -- os.system($SHELL)
  | statusQuery                          -- git status --porcelain
  | diffQuery                            -- git diff
  | mergeAbort                           -- git merge --abort
  | resetHard (ref : String)             -- git reset --hard <ref>
  | branchDelete (name : String)         -- git branch -D <name>
  | worktreeRemove (path : String)       -- git worktree remove <path> --force
  | push                                 -- git push
  | branchMerged                         -- git branch --merged
  | revListCount (parent branch : String) -- git rev-list --count parent..branch
  deriving Repr, DecidableEq

/-- Commands that mutate repository, working tree or remote state; the
rest are pure queries.  `mergetool` and the interactive shell are counted
as mutating (they touch the working tree). -/
def isMutating : Cmd → Bool
  | .worktreeList | .configGet _ | .showRef _ | .logRange _ _ | .diffRange _ _
  | .conflictFilesQuery | .statusQuery | .diffQuery | .branchMerged
  | .revListCount _ _ => false
  | _ => true

/-- User-visible error / warning reports the code prints (modulo exact
wording). -/
inductive Warn where
  | notFound                      -- "Branch ... not found in worktrees"
  | noParent                      -- "Cannot determine parent branch"
  | checkoutFailed                -- "Failed to checkout ..."
  | mergeFailed                   -- "Merge failed: ..."
  | pushFailed                    -- "Warning: Failed to push changes"
  | worktreeRemoveFailed          -- "Warning: Could not remove worktree"
  | branchDeleteFailed            -- "Warning: Could not delete branch"
  | mergetoolFailed               -- "Merge tool not configured or failed"
  | conflictsRemain               -- "Conflicts still exist. Please resolve them."
  | manualRollback (ref : String) -- "Manual rollback: git reset --hard <ref>"
  | exception                     -- generic "Error during merge: ..."
  deriving Repr, DecidableEq

/-- One round of the interactive conflict-resolution loop: the user's
menu choice plus the external answers consumed in that round. -/
inductive Choice where
  | tool      -- "1": open merge tool
  | manual    -- "2": manual resolution
  | abort     -- "3": abort merge and rollback
  | showDiff  -- "4": show conflict details
  deriving Repr, DecidableEq

/-- Per-iteration script entry for the conflict loop: the unused fields
of a round are ignored, matching the branch structure of the source. -/
structure IterStep where
  choice : Choice
  mergetoolOk : Bool := true      -- exit status of git mergetool (choice 1)
  confirmCommit : Bool := true    -- "Conflicts resolved? Ready to commit?"
  openShell : Bool := true        -- "Open shell for manual resolution?"
  confirmResolved : Bool := true  -- "Conflicts resolved and committed?"
  statusOut : String := ""        -- stdout of git status --porcelain
  deriving Repr, DecidableEq

/-- The external world as observed by one `WorktreeManager` invocation:
results of every command the code may issue, filesystem probes, and the
scripted interactive answers. -/
structure Env where
  worktreeListOk : Bool := true           -- git worktree list exit ok
  worktreeStdout : String := ""           -- its stdout
  rootDir : String := "/repo"             -- Path.cwd() at construction
  cwd : String := "/repo"                 -- Path.cwd() during annotation
  dirExists : String → Bool := fun _ => false    -- Path.exists probes
  issueGlob : String → List String := fun _ => []  -- stems of issue-*.md matches
  townParent : String → Option String := fun _ => none -- git config stdout when rc=0
  refExists : String → Bool := fun _ => false    -- git show-ref rc=0
  timestamp : String := "20240101-000000"        -- datetime.now strftime
  backupOk : Bool := true                 -- rc of git branch backup (never read)
  checkoutOk : Bool := true
  mergeOk : Bool := true
  mergeStdout : String := ""
  mergeStderr : String := ""
  logOk : Bool := true                    -- preview: git log rc
  logStdout : String := ""
  diffOk : Bool := true                   -- preview: git diff rc
  diffStdout : String := ""
  previewConfirm : Bool := true           -- "Proceed with merge?"
  commitOk : Bool := true                 -- git commit --no-edit rc (check=True)
  resetRaises : Bool := false             -- git reset run raises in rollback
  deleteBackupRaises : Bool := false      -- git branch -D backup run raises
  pushOk : Bool := true
  wtRemoveOk : String → Bool := fun _ => true
  branchDeleteOk : String → Bool := fun _ => true
  mergedOk : Bool := true                 -- git branch --merged rc
  mergedStdout : String := ""
  revListOk : String → String → Bool := fun _ _ => true
  revListOut : String → String → String := fun _ _ => "0"
  script : List IterStep := []            -- conflict-loop interactions

/-! ### Annotated worktree records (`get_worktrees`, metadata pass) -/

/-- A fully annotated worktree record, as produced by the metadata pass
of `get_worktrees`. -/
structure Wt where
  path : String
  head : Option String
  branch : Option String
  detached : Bool
  name : String
  is_current : Bool
  has_context : Bool
  issue : Option String
  children : List String
  deriving Repr, DecidableEq

/-- The non-empty segments of a normalized absolute path. -/
def pathSegs (p : String) : List String :=
  (pySplit p '/').filter fun s => s ≠ ""

/-- Last path component: Python's `Path(p).name` on a normalized
absolute path. -/
def pathName (p : String) : String :=
  ((pathSegs p).getLast?).getD ""

/-- Python's `Path(p).parent` on a normalized absolute path. -/
def parentPath (p : String) : String :=
  "/" ++ String.intercalate "/" ((pathSegs p).dropLast)

/-- Scan for children of the worktree at `p`: every record whose path's
grandparent equals `p` contributes its `name`.  Reading the name of a
record that has not been annotated yet (a later index) is the Python
`KeyError` (`child['name']`), modelled as `Except.error`; so is a record
with no `path` key. -/
def childScan (p : String) (names : List String) (selfIdx : Nat) (selfName : String) :
    Nat → List RawWt → Except Unit (List String)
  | _, [] => .ok []
  | j, c :: rest => do
    let cp ← match c.path with
      | some q => Except.ok q
      | none => Except.error ()
    let tail ← childScan p names selfIdx selfName (j + 1) rest
    if parentPath (parentPath cp) = p then
      let n ← if j = selfIdx then Except.ok selfName
          else match names.get? j with
            | some n => Except.ok n
            | none => Except.error ()
      pure (n :: tail)
    else
      pure tail

/-- The metadata pass of `get_worktrees`, annotating each raw record in
order (name, is_current, context, issue, children).  A record with no
`path` is the Python `KeyError` (`wt['path']`), modelled as
`Except.error`. -/
def annotateRecords (rootDir cwd : String) (dirExists : String → Bool)
    (issueGlob : String → List String) (allRaw : List RawWt) :
    Nat → List Wt → List RawWt → Except Unit (List Wt)
  | _, done, [] => .ok done
  | i, done, r :: rest => do
    let p ← match r.path with
      | some q => Except.ok q
      | none => Except.error ()
    let name := if p = rootDir then "main" else pathName p
    let ctx := p ++ "/.context"
    let hasCtx := dirExists ctx
    let issue :=
      if hasCtx then ((issueGlob ctx).head?).map fun s => pyReplace s "issue-" ""
      else none
    let children ←
      if p = rootDir then Except.ok []
      else if dirExists (p ++ "/worktrees") then
        childScan p (done.map fun w => w.name) i name 0 allRaw
      else Except.ok []
    annotateRecords rootDir cwd dirExists issueGlob allRaw (i + 1)
      (done ++ [{ path := p, head := r.head, branch := r.branch,
                  detached := r.detached, name := name,
                  is_current := p = cwd, has_context := hasCtx,
                  issue := issue, children := children }]) rest

/-- `WorktreeManager.get_worktrees`: a failing list command is caught
(`CalledProcessError`) and yields `[]`; a `KeyError` in the metadata pass
propagates to the caller (`Except.error`). -/
def get_worktrees (env : Env) : Except Unit (List Wt) :=
  if env.worktreeListOk then
    let raws := parse_worktrees env.worktreeStdout
    annotateRecords env.rootDir env.cwd env.dirExists env.issueGlob raws 0 [] raws
  else
    .ok []

/-! ### Parent-branch resolution (`WorktreeManager._get_parent_branch`) -/

/-- `_get_parent_branch`: git-town native lookup keyed by the record's
branch name (falling back to `''` when the record is detached), then the
first existing ref among `main`, `master`.  Returns the parent (if any)
and the trace of issued query commands. -/
def get_parent_branch (env : Env) (wt : Wt) : Option String × List Cmd :=
  let b := wt.branch.getD ""
  match env.townParent b with
  | some out => (some (pyStrip out), [.configGet b])
  | none =>
    if env.refExists "main" then (some "main", [.configGet b, .showRef "main"])
    else if env.refExists "master" then
      (some "master", [.configGet b, .showRef "main", .showRef "master"])
    else (none, [.configGet b, .showRef "main", .showRef "master"])

/-! ### Merge pipeline (`WorktreeManager.merge_branch` and helpers) -/

/-- Result of one `merge_branch`-level operation: the returned boolean
(`none` when the interactive script ran out, i.e. the program is still
blocked on input), the trace of external commands in order, and the
reported warnings/errors. -/
structure MergeRun where
  result : Option Bool
  trace : List Cmd
  warns : List Warn
  deriving Repr, DecidableEq

/-- `_preview_merge`: log query; when it shows no commits, return True at
once; otherwise diff query, then the confirmation prompt decides the
returned boolean.  No mutating command is issued. -/
def preview_merge (env : Env) (branch parent : String) : Bool × List Cmd :=
  if env.logOk && pyStrip env.logStdout ≠ "" then
    (env.previewConfirm, [.logRange parent branch, .diffRange parent branch])
  else
    (true, [.logRange parent branch])

/-- `_rollback_merge`: reset `--hard` to the backup ref, then delete the
backup ref, both with ignored exit codes; if either `subprocess.run`
itself raises, the `except` arm prints the manual-recovery instruction
naming the backup ref. -/
def rollback_merge (resetRaises deleteBackupRaises : Bool) (backupRef : String) :
    List Cmd × List Warn :=
  if resetRaises then ([], [.manualRollback backupRef])
  else if deleteBackupRaises then
    ([.resetHard backupRef], [.manualRollback backupRef])
  else ([.resetHard backupRef, .branchDelete backupRef], [])

/-- `_cleanup_merged_branch`: remove the worktree (forced) and delete the
branch; each failure is reported as a warning and does not stop the
other step. -/
def cleanup_merged_branch (env : Env) (wtPath branch : String) : List Cmd × List Warn :=
  ([.worktreeRemove wtPath, .branchDelete branch],
    (if env.wtRemoveOk wtPath then [] else [.worktreeRemoveFailed]) ++
    (if env.branchDeleteOk branch then [] else [.branchDeleteFailed]))

/-- The `while True` menu of `_handle_merge_conflicts`, recursing on the
scripted interactions.  Only choice 4 ("show diff") and the
still-conflicted branch of choice 2 loop; every other branch returns or
falls through to the trailing `break` (returning False with the merge
left as-is).  A failing `git commit` (run with `check=True`) raises into
the handler's `except`, which rolls back and returns False. -/
def conflictLoop (commitOk resetRaises deleteBackupRaises : Bool) (backupRef : String) :
    List IterStep → MergeRun
  | [] => ⟨none, [], []⟩
  | s :: rest =>
    match s.choice with
    | .tool =>
      if s.mergetoolOk then
        if s.confirmCommit then
          if commitOk then ⟨some true, [.mergetool, .commitNoEdit], []⟩
          else
            let rb := rollback_merge resetRaises deleteBackupRaises backupRef
            ⟨some false, [.mergetool, .commitNoEdit] ++ rb.1, rb.2⟩
        else ⟨some false, [.mergetool], []⟩
      else ⟨some false, [.mergetool], [.mergetoolFailed]⟩
    | .manual =>
      if s.openShell then
        if s.confirmResolved then
          if strContains s.statusOut "UU" then
            let k := conflictLoop commitOk resetRaises deleteBackupRaises backupRef rest
            ⟨k.result, [.shellSession, .statusQuery] ++ k.trace, .conflictsRemain :: k.warns⟩
          else ⟨some true, [.shellSession, .statusQuery], []⟩
        else ⟨some false, [.shellSession], []⟩
      else ⟨some false, [], []⟩
    | .abort =>
      let rb := rollback_merge resetRaises deleteBackupRaises backupRef
      ⟨some false, .mergeAbort :: rb.1, rb.2⟩
    | .showDiff =>
      let k := conflictLoop commitOk resetRaises deleteBackupRaises backupRef rest
      ⟨k.result, .diffQuery :: k.trace, k.warns⟩

/-- `_handle_merge_conflicts`: list the conflicted files, then run the
menu loop. -/
def handle_merge_conflicts (env : Env) (backupRef : String) : MergeRun :=
  let k := conflictLoop env.commitOk env.resetRaises env.deleteBackupRaises backupRef
    env.script
  ⟨k.result, .conflictFilesQuery :: k.trace, k.warns⟩

/-- Does the merge command's output show conflict markers
(`"CONFLICT" in stdout or "conflict" in stderr.lower()`)? -/
def conflictMarkers (env : Env) : Bool :=
  strContains env.mergeStdout "CONFLICT" || strContains (pyLower env.mergeStderr) "conflict"

/-- The straight-line tail of `merge_branch` after the backup ref has
been created: checkout, merge, then the success / conflict / rollback
arms, cleanup, push and backup deletion. -/
def mergePhase (env : Env) (branch parent backupRef wtPath : String)
    (cleanup pu : Bool) : MergeRun :=
  if env.checkoutOk then
    if env.mergeOk then
      let cw := if cleanup then cleanup_merged_branch env wtPath branch else ([], [])
      let pw : List Cmd × List Warn :=
        if pu then ([.push], if env.pushOk then [] else [.pushFailed]) else ([], [])
      ⟨some true,
        .checkout parent :: .mergeNoFF branch :: (cw.1 ++ pw.1 ++ [.branchDelete backupRef]),
        cw.2 ++ pw.2⟩
    else if conflictMarkers env then
      let hc := handle_merge_conflicts env backupRef
      ⟨hc.result, .checkout parent :: .mergeNoFF branch :: hc.trace, hc.warns⟩
    else
      let rb := rollback_merge env.resetRaises env.deleteBackupRaises backupRef
      ⟨some false, .checkout parent :: .mergeNoFF branch :: rb.1, .mergeFailed :: rb.2⟩
  else
    ⟨some false, [.checkout parent], [.checkoutFailed]⟩

/-- Target-worktree resolution in `merge_branch`: first record whose
branch or directory-derived name equals the requested name. -/
def findTarget (branch_name : String) (wts : List Wt) : Option Wt :=
  wts.find? fun wt => wt.branch == some branch_name || wt.name == branch_name

/-- `WorktreeManager.merge_branch(branch_name, cleanup, preview, push)`.
An exception escaping `get_worktrees` is caught by the outer handler
(report and return False). -/
def merge_branch (env : Env) (branch_name : String)
    (cleanup preview pu : Bool) : MergeRun :=
  match get_worktrees env with
  | .error _ => ⟨some false, [.worktreeList], [.exception]⟩
  | .ok wts =>
    match findTarget branch_name wts with
    | none => ⟨some false, [.worktreeList], [.notFound]⟩
    | some target =>
      let pp := get_parent_branch env target
      match pp.1 with
      | none => ⟨some false, .worktreeList :: pp.2, [.noParent]⟩
      | some parent =>
        if preview then
          let pv := preview_merge env branch_name parent
          ⟨some pv.1, .worktreeList :: (pp.2 ++ pv.2), []⟩
        else
          let backupRef := "backup/" ++ branch_name ++ "-" ++ env.timestamp
          let rest := mergePhase env branch_name parent backupRef target.path cleanup pu
          ⟨rest.result,
            .worktreeList :: (pp.2 ++ (.branchCreate backupRef parent :: rest.trace)),
            rest.warns⟩

/-! ### Batch operations (`auto_clean`, `ship_all`), dry-run paths -/

/-- The merged-branch list comprehension of `auto_clean`: each line of
`git branch --merged` output, stripped and with `*` removed, kept when
the raw stripped line is non-empty and the cleaned name is not a trunk
branch. -/
def mergedBranches (stdout : String) : List String :=
  (pySplit (pyStrip stdout) '\n').filterMap fun line =>
    let cleaned := pyStrip (pyReplace (pyStrip line) "*" "")
    if pyStrip line ≠ "" && cleaned ≠ "main" && cleaned ≠ "master" then some cleaned
    else none

/-- `WorktreeManager.auto_clean(dry_run=True)`: returns the candidate
branch names (one per matching worktree, in merged-branch order) and the
trace of issued commands. -/
def auto_clean_dry (env : Env) : List String × List Cmd :=
  if env.mergedOk then
    let merged := mergedBranches env.mergedStdout
    if merged.isEmpty then ([], [.branchMerged])
    else
      match get_worktrees env with
      | .error _ => ([], [.branchMerged, .worktreeList])
      | .ok wts =>
        (merged.flatMap fun b =>
          (wts.filter fun wt => wt.branch == some b).map fun _ => b,
          [.branchMerged, .worktreeList])
  else ([], [.branchMerged])

/-- The candidate scan of `ship_all`: for each worktree with a named
non-trunk, non-detached branch, resolve the parent and count commits
ahead; a non-integer rev-list output is the Python `ValueError`
(propagating out of the scan with the trace issued so far). -/
def shipScan (env : Env) : List Wt → Except (List Cmd) (List String × List Cmd)
  | [] => .ok ([], [])
  | wt :: rest =>
    let b := wt.branch.getD ""
    if b ≠ "" && b ≠ "main" && b ≠ "master" && !wt.detached then
      let pp := get_parent_branch env wt
      match pp.1 with
      | none =>
        match shipScan env rest with
        | .error tr => .error (pp.2 ++ tr)
        | .ok (cs, tr) => .ok (cs, pp.2 ++ tr)
      | some parent =>
        let tr0 := pp.2 ++ [.revListCount parent b]
        if env.revListOk parent b then
          match pyToInt (pyStrip (env.revListOut parent b)) with
          | none => .error tr0
          | some n =>
            if n > 0 then
              match shipScan env rest with
              | .error tr => .error (tr0 ++ tr)
              | .ok (cs, tr) => .ok (b :: cs, tr0 ++ tr)
            else
              match shipScan env rest with
              | .error tr => .error (tr0 ++ tr)
              | .ok (cs, tr) => .ok (cs, tr0 ++ tr)
        else
          match shipScan env rest with
          | .error tr => .error (tr0 ++ tr)
          | .ok (cs, tr) => .ok (cs, tr0 ++ tr)
    else
      shipScan env rest

/-- `WorktreeManager.ship_all(dry_run=True)`: the candidate branch list
and the issued commands; any exception (metadata `KeyError`, rev-list
`ValueError`) is caught by the outer handler and yields `[]`. -/
def ship_all_dry (env : Env) : List String × List Cmd :=
  match get_worktrees env with
  | .error _ => ([], [.worktreeList])
  | .ok wts =>
    match shipScan env wts with
    | .error tr => ([], .worktreeList :: tr)
    | .ok (cs, tr) => (cs, .worktreeList :: tr)

/-- The claim-side readiness predicate for `ship_all` dry runs: a named
branch, not trunk, not detached, with a resolvable parent and a strictly
positive forward commit count. -/
def shipReady (env : Env) (wt : Wt) : Bool :=
  let b := wt.branch.getD ""
  (b ≠ "" && b ≠ "main" && b ≠ "master" && !wt.detached) &&
    match (get_parent_branch env wt).1 with
    | none => false
    | some parent =>
      env.revListOk parent b && ((pyToInt (pyStrip (env.revListOut parent b))).getD 0) > 0

/-- Does the rev-list output for this worktree parse as an integer
whenever it would be consulted?  True of every actual git rev-list
`--count` output; the `ValueError` path of `ship_all` is only reachable
when this fails. -/
def revCountParses (env : Env) (wt : Wt) : Bool :=
  match (get_parent_branch env wt).1 with
  | none => true
  | some parent =>
    !(env.revListOk parent (wt.branch.getD ""))
      || (pyToInt (pyStrip (env.revListOut parent (wt.branch.getD "")))).isSome

/-- Is the (unique, at most one) merge in a trace followed by some
settling command — an abort, a reset, or a conflict commit?  `true` when
no merge was issued at all. -/
def mergeSettled : List Cmd → Bool
  | [] => true
  | .mergeNoFF _ :: rest =>
    rest.any fun c =>
      match c with
      | .mergeAbort => true
      | .resetHard _ => true
      | .commitNoEdit => true
      | _ => false
  | _ :: rest => mergeSettled rest

/-! ## Lemmas about the porcelain parser -/

theorem wfStep_fst_false (st : Bool × Bool) (l : String) (h : st.1 = false) :
    (wfStep st l).1 = false := by
  unfold wfStep
  repeat' split
  all_goals simp [h]

theorem wf_foldl_false (lines : List String) :
    ∀ st : Bool × Bool, st.1 = false → (lines.foldl wfStep st).1 = false := by
  induction lines with
  | nil => intro st h; simpa using h
  | cons l ls ih =>
    intro st h
    rw [List.foldl_cons]
    exact ih _ (wfStep_fst_false st l h)

theorem isEmpty_mk_path (p : String) :
    (RawWt.mk (some p) none none false).isEmpty = false := rfl

theorem isEmpty_set_head (cur : RawWt) (h : String) :
    ({ cur with head := some h } : RawWt).isEmpty = false := by
  simp [RawWt.isEmpty]

theorem isEmpty_set_branch (cur : RawWt) (b : String) :
    ({ cur with branch := some b } : RawWt).isEmpty = false := by
  simp [RawWt.isEmpty]

theorem isEmpty_set_detached (cur : RawWt) :
    ({ cur with detached := true } : RawWt).isEmpty = false := by
  simp [RawWt.isEmpty]

theorem parseStep_header (wts : List RawWt) (cur : RawWt) (l : String)
    (h1 : pyStartsWith l "worktree " = true) :
    parseStep (wts, cur) l
      = (if cur.isEmpty then wts else wts ++ [cur], ⟨some (pyDrop l 9), none, none, false⟩) := by
  simp [parseStep, h1]

theorem parseStep_head (wts : List RawWt) (cur : RawWt) (l : String)
    (h1 : pyStartsWith l "worktree " = false) (h2 : pyStartsWith l "HEAD " = true) :
    parseStep (wts, cur) l = (wts, { cur with head := some (pyDrop l 5) }) := by
  simp [parseStep, h1, h2]

theorem parseStep_branch (wts : List RawWt) (cur : RawWt) (l : String)
    (h1 : pyStartsWith l "worktree " = false) (h2 : pyStartsWith l "HEAD " = false)
    (h3 : pyStartsWith l "branch " = true) :
    parseStep (wts, cur) l
      = (wts, { cur with branch := some (pyReplace (pyDrop l 7) "refs/heads/" "") }) := by
  simp [parseStep, h1, h2, h3]

theorem parseStep_detached (wts : List RawWt) (cur : RawWt) (l : String)
    (h1 : pyStartsWith l "worktree " = false) (h2 : pyStartsWith l "HEAD " = false)
    (h3 : pyStartsWith l "branch " = false) (h4 : pyStartsWith l "detached" = true) :
    parseStep (wts, cur) l = (wts, { cur with detached := true }) := by
  simp [parseStep, h1, h2, h3, h4]

theorem parseStep_blank (wts : List RawWt) (cur : RawWt) (l : String)
    (h1 : pyStartsWith l "worktree " = false) (h2 : pyStartsWith l "HEAD " = false)
    (h3 : pyStartsWith l "branch " = false) (h4 : pyStartsWith l "detached" = false)
    (h5 : (l == "") = true) :
    parseStep (wts, cur) l = (if cur.isEmpty then wts else wts ++ [cur], {}) := by
  simp [parseStep, h1, h2, h3, h4, h5]

theorem parseStep_other (wts : List RawWt) (cur : RawWt) (l : String)
    (h1 : pyStartsWith l "worktree " = false) (h2 : pyStartsWith l "HEAD " = false)
    (h3 : pyStartsWith l "branch " = false) (h4 : pyStartsWith l "detached" = false)
    (h5 : (l == "") = false) :
    parseStep (wts, cur) l = (wts, cur) := by
  simp [parseStep, h1, h2, h3, h4, h5]

theorem wfStep_header (st : Bool × Bool) (l : String)
    (h1 : pyStartsWith l "worktree " = true) : wfStep st l = (st.1, true) := by
  simp [wfStep, h1]

theorem wfStep_attr (st : Bool × Bool) (l : String)
    (h1 : pyStartsWith l "worktree " = false)
    (ha : pyStartsWith l "HEAD " = true ∨ pyStartsWith l "branch " = true
        ∨ pyStartsWith l "detached" = true) :
    wfStep st l = (st.1 && st.2, st.2) := by
  rcases ha with h2 | h3 | h4
  · simp [wfStep, h1, h2]
  · cases h2 : pyStartsWith l "HEAD " <;> simp [wfStep, h1, h2, h3]
  · cases h2 : pyStartsWith l "HEAD " <;> cases h3 : pyStartsWith l "branch " <;>
      simp [wfStep, h1, h2, h3, h4]

theorem wfStep_blank (st : Bool × Bool) (l : String)
    (h1 : pyStartsWith l "worktree " = false) (h2 : pyStartsWith l "HEAD " = false)
    (h3 : pyStartsWith l "branch " = false) (h4 : pyStartsWith l "detached" = false)
    (h5 : (l == "") = true) : wfStep st l = (st.1, false) := by
  simp [wfStep, h1, h2, h3, h4, h5]

theorem wfStep_other (st : Bool × Bool) (l : String)
    (h1 : pyStartsWith l "worktree " = false) (h2 : pyStartsWith l "HEAD " = false)
    (h3 : pyStartsWith l "branch " = false) (h4 : pyStartsWith l "detached" = false)
    (h5 : (l == "") = false) : wfStep st l = st := by
  simp [wfStep, h1, h2, h3, h4, h5]

theorem headersOf_cons_header (l : String) (ls : List String)
    (h1 : pyStartsWith l "worktree " = true) :
    headersOf (l :: ls) = pyDrop l 9 :: headersOf ls := by
  simp [headersOf, h1]

theorem headersOf_cons_other (l : String) (ls : List String)
    (h1 : pyStartsWith l "worktree " = false) :
    headersOf (l :: ls) = headersOf ls := by
  simp [headersOf, h1]

theorem parse_wf_aux (lines : List String) :
    ∀ (wts : List RawWt) (cur : RawWt) (inBlock : Bool),
      cur.isEmpty = !inBlock →
      (lines.foldl wfStep (true, inBlock)).1 = true →
      (finalizeParse (lines.foldl parseStep (wts, cur))).map RawWt.path
        = wts.map RawWt.path ++ (if cur.isEmpty then [] else [cur.path])
          ++ (headersOf lines).map some := by
  induction lines with
  | nil =>
    intro wts cur inBlock hinv _
    simp only [List.foldl_nil, finalizeParse, headersOf, List.filterMap_nil, List.map_nil,
      List.append_nil]
    cases hemp : cur.isEmpty <;> simp [hemp]
  | cons l ls ih =>
    intro wts cur inBlock hinv hwf
    rw [List.foldl_cons] at hwf ⊢
    cases h1 : pyStartsWith l "worktree " with
    | true =>
      rw [parseStep_header wts cur l h1]
      rw [wfStep_header (true, inBlock) l h1] at hwf
      have hrec := ih (if cur.isEmpty then wts else wts ++ [cur])
        ⟨some (pyDrop l 9), none, none, false⟩ true rfl hwf
      rw [hrec, headersOf_cons_header l ls h1]
      cases hemp : cur.isEmpty <;> simp [hemp, RawWt.isEmpty]
    | false =>
      by_cases ha : pyStartsWith l "HEAD " = true ∨ pyStartsWith l "branch " = true
          ∨ pyStartsWith l "detached" = true
      · -- attribute line: only legal inside a block
        rw [wfStep_attr (true, inBlock) l h1 ha] at hwf
        simp only [Bool.true_and] at hwf
        cases hb : inBlock with
        | false =>
          exfalso
          rw [hb] at hwf
          rw [wf_foldl_false ls (false, false) rfl] at hwf
          exact Bool.false_ne_true hwf
        | true =>
          rw [hb] at hwf hinv
          have hemp : cur.isEmpty = false := by simpa using hinv
          rcases ha with h2 | h3 | h4
          · rw [parseStep_head wts cur l h1 h2]
            have hrec := ih wts { cur with head := some (pyDrop l 5) } true
              (by simp [isEmpty_set_head]) hwf
            rw [hrec, headersOf_cons_other l ls h1, hemp]
            simp [isEmpty_set_head]
          · cases h2 : pyStartsWith l "HEAD " with
            | true =>
              rw [parseStep_head wts cur l h1 h2]
              have hrec := ih wts { cur with head := some (pyDrop l 5) } true
                (by simp [isEmpty_set_head]) hwf
              rw [hrec, headersOf_cons_other l ls h1, hemp]
              simp [isEmpty_set_head]
            | false =>
              rw [parseStep_branch wts cur l h1 h2 h3]
              have hrec := ih wts
                { cur with branch := some (pyReplace (pyDrop l 7) "refs/heads/" "") } true
                (by simp [isEmpty_set_branch]) hwf
              rw [hrec, headersOf_cons_other l ls h1, hemp]
              simp [isEmpty_set_branch]
          · cases h2 : pyStartsWith l "HEAD " with
            | true =>
              rw [parseStep_head wts cur l h1 h2]
              have hrec := ih wts { cur with head := some (pyDrop l 5) } true
                (by simp [isEmpty_set_head]) hwf
              rw [hrec, headersOf_cons_other l ls h1, hemp]
              simp [isEmpty_set_head]
            | false =>
              cases h3 : pyStartsWith l "branch " with
              | true =>
                rw [parseStep_branch wts cur l h1 h2 h3]
                have hrec := ih wts
                  { cur with branch := some (pyReplace (pyDrop l 7) "refs/heads/" "") } true
                  (by simp [isEmpty_set_branch]) hwf
                rw [hrec, headersOf_cons_other l ls h1, hemp]
                simp [isEmpty_set_branch]
              | false =>
                rw [parseStep_detached wts cur l h1 h2 h3 h4]
                have hrec := ih wts { cur with detached := true } true
                  (by simp [isEmpty_set_detached]) hwf
                rw [hrec, headersOf_cons_other l ls h1, hemp]
                simp [isEmpty_set_detached]
      · -- not an attribute line
        push_neg at ha
        simp only [Bool.not_eq_true] at ha
        obtain ⟨h2, h3, h4⟩ := ha
        cases h5 : (l == "") with
        | true =>
          rw [parseStep_blank wts cur l h1 h2 h3 h4 h5]
          rw [wfStep_blank (true, inBlock) l h1 h2 h3 h4 h5] at hwf
          have hrec := ih (if cur.isEmpty then wts else wts ++ [cur]) {} false rfl hwf
          rw [hrec, headersOf_cons_other l ls h1]
          cases hemp : cur.isEmpty <;> simp [hemp, RawWt.isEmpty]
        | false =>
          rw [parseStep_other wts cur l h1 h2 h3 h4 h5]
          rw [wfStep_other (true, inBlock) l h1 h2 h3 h4 h5] at hwf
          have hrec := ih wts cur inBlock hinv hwf
          rw [hrec, headersOf_cons_other l ls h1]

/-! ## Claim C9 -/

/-- Claim C9: on well-formed porcelain output (attribute lines only occur
inside a block opened by a `worktree ` header), the parsing loop of
`get_worktrees` produces exactly one record per `worktree ` header line,
with the records' paths being exactly the header paths in order — no
record is fabricated without a header and no header path is duplicated
into several records. -/
theorem get_worktrees_one_record_per_header (stdout : String)
    (hwf : wfLines (pySplit (pyStrip stdout) '\n') = true) :
    (parse_worktrees stdout).map RawWt.path
        = (headersOf (pySplit (pyStrip stdout) '\n')).map some
    ∧ (parse_worktrees stdout).length
        = (headersOf (pySplit (pyStrip stdout) '\n')).length := by
  have h := parse_wf_aux (pySplit (pyStrip stdout) '\n') [] {} false rfl hwf
  have h2 : (parse_worktrees stdout).map RawWt.path
      = (headersOf (pySplit (pyStrip stdout) '\n')).map some := by
    unfold parse_worktrees
    simpa using h
  refine ⟨h2, ?_⟩
  have h3 := congrArg List.length h2
  simpa using h3

/-- A sample porcelain dump with three blocks (one per header), used to
instantiate the C9 theorem at a concrete input. -/
def sampleStdout : String :=
  "worktree /repo\nHEAD abc123\nbranch refs/heads/main\n\nworktree /repo/worktrees/feat\nbranch refs/heads/feat\n\nworktree /repo/worktrees/det\ndetached"

theorem get_worktrees_one_record_per_header_witness :
    wfLines (pySplit (pyStrip sampleStdout) '\n') = true
    ∧ (parse_worktrees sampleStdout).map RawWt.path
        = (headersOf (pySplit (pyStrip sampleStdout) '\n')).map some :=
  ⟨by decide, (get_worktrees_one_record_per_header sampleStdout (by decide)).1⟩

/-! ## Claim C6 -/

/-- Claim C6: `_get_parent_branch` precedence — a successful git-town
config lookup keyed by the record's branch name wins outright (its
stripped stdout is returned, regardless of which refs exist); otherwise
an existing `main` wins over `master`; otherwise an existing `master`;
otherwise no parent. -/
theorem get_parent_branch_precedence (env : Env) (wt : Wt) :
    (∀ p, env.townParent (wt.branch.getD "") = some p →
        (get_parent_branch env wt).1 = some (pyStrip p))
    ∧ (env.townParent (wt.branch.getD "") = none → env.refExists "main" = true →
        (get_parent_branch env wt).1 = some "main")
    ∧ (env.townParent (wt.branch.getD "") = none → env.refExists "main" = false →
        env.refExists "master" = true → (get_parent_branch env wt).1 = some "master")
    ∧ (env.townParent (wt.branch.getD "") = none → env.refExists "main" = false →
        env.refExists "master" = false → (get_parent_branch env wt).1 = none) := by
  refine ⟨?_, ?_, ?_, ?_⟩ <;> intros <;> simp_all [get_parent_branch]

/-- A worktree record for the feature branch, with a directory name that
differs from the branch name. -/
def wtFeat : Wt :=
  ⟨"/repo/worktrees/dirname", none, some "feat", false, "dirname", false, false, none, []⟩

/-- Environment with a native git-town parent for `feat` while `main` and
`master` both exist. -/
def envTown : Env :=
  { townParent := fun b => if b = "feat" then some "dev" else none
    refExists := fun _ => true }

/-- Environment with no native parent entry while `main` and `master`
both exist. -/
def envTrunks : Env := { refExists := fun _ => true }

theorem get_parent_branch_precedence_witness :
    (get_parent_branch envTown wtFeat).1 = some "dev"
    ∧ (get_parent_branch envTrunks wtFeat).1 = some "main" :=
  ⟨(get_parent_branch_precedence envTown wtFeat).1 "dev" rfl,
    (get_parent_branch_precedence envTrunks wtFeat).2.1 rfl rfl⟩

/-! ## Claim C10 -/

theorem findTarget_append_first (b : String) (l₁ : List Wt) (t : Wt) (l₂ : List Wt)
    (hnone : ∀ w ∈ l₁, ¬(w.branch = some b ∨ w.name = b))
    (ht : t.branch = some b ∨ t.name = b) :
    findTarget b (l₁ ++ t :: l₂) = some t := by
  induction l₁ with
  | nil =>
    simp only [List.nil_append, findTarget, List.find?_cons]
    have : (t.branch == some b || t.name == b) = true := by
      rcases ht with h | h <;> simp [h]
    rw [this]
  | cons w l₁ ih =>
    have hw := hnone w (List.mem_cons_self w l₁)
    have hpred : (w.branch == some b || w.name == b) = false := by
      push_neg at hw
      simp [hw.1, hw.2]
    simp only [List.cons_append, findTarget, List.find?_cons, hpred]
    exact ih fun x hx => hnone x (List.mem_cons_of_mem w hx)

/-- Claim C10: in `merge_branch` the target worktree is the first record
(in listing order) whose branch name or directory-derived name equals the
requested name — so a worktree whose directory name differs from its
branch name is found through either identifier — and only when no record
matches on either field does the operation fail with the not-found
outcome (returning False, reporting not-found, issuing nothing beyond
the listing query). -/
theorem merge_branch_target_resolution (env : Env) (b : String)
    (cleanup preview pu : Bool) (wts : List Wt)
    (hl : get_worktrees env = .ok wts) :
    ((∀ w ∈ wts, ¬(w.branch = some b ∨ w.name = b)) →
      merge_branch env b cleanup preview pu
        = ⟨some false, [.worktreeList], [.notFound]⟩)
    ∧ (∀ l₁ t l₂, wts = l₁ ++ t :: l₂ →
        (∀ w ∈ l₁, ¬(w.branch = some b ∨ w.name = b)) →
        (t.branch = some b ∨ t.name = b) →
        findTarget b wts = some t) := by
  constructor
  · intro hno
    have hfind : findTarget b wts = none := by
      unfold findTarget
      rw [List.find?_eq_none]
      intro w hw
      have := hno w hw
      push_neg at this
      simp [this.1, this.2]
    simp [merge_branch, hl, hfind]
  · intro l₁ t l₂ hsplit hnone ht
    rw [hsplit]
    exact findTarget_append_first b l₁ t l₂ hnone ht

/-- Environment whose listing has a root worktree on `main` and a feature
worktree whose directory name (`dirname`) differs from its branch name
(`feat`). -/
def envTwo : Env :=
  { worktreeStdout := "worktree /repo\nbranch refs/heads/main\n\nworktree /repo/worktrees/dirname\nbranch refs/heads/feat"
    refExists := fun r => r = "main" }

/-- The annotated records of `envTwo`. -/
def wtRoot : Wt := ⟨"/repo", none, some "main", false, "main", true, false, none, []⟩

theorem merge_branch_target_resolution_witness :
    findTarget "feat" [wtRoot, wtFeat] = some wtFeat
    ∧ findTarget "dirname" [wtRoot, wtFeat] = some wtFeat
    ∧ merge_branch envTwo "nope" true false true
        = ⟨some false, [.worktreeList], [.notFound]⟩ :=
  ⟨(merge_branch_target_resolution envTwo "feat" true false true [wtRoot, wtFeat]
      (by rfl)).2 [wtRoot] wtFeat [] rfl (by decide) (by decide),
    (merge_branch_target_resolution envTwo "dirname" true false true [wtRoot, wtFeat]
      (by rfl)).2 [wtRoot] wtFeat [] rfl (by decide) (by decide),
    (merge_branch_target_resolution envTwo "nope" true false true [wtRoot, wtFeat]
      (by rfl)).1 (by decide)⟩

/-! ## Trace helper lemmas -/

theorem get_parent_branch_trace_queries (env : Env) (wt : Wt) :
    ∀ c ∈ (get_parent_branch env wt).2, isMutating c = false := by
  intro c hc
  unfold get_parent_branch at hc
  cases htp : env.townParent (wt.branch.getD "") with
  | some out =>
    simp [htp] at hc
    subst hc
    rfl
  | none =>
    cases hm : env.refExists "main" with
    | true =>
      simp [htp, hm] at hc
      rcases hc with h | h <;> subst h <;> rfl
    | false =>
      cases hms : env.refExists "master" with
      | true =>
        simp [htp, hm, hms] at hc
        rcases hc with h | h | h <;> subst h <;> rfl
      | false =>
        simp [htp, hm, hms] at hc
        rcases hc with h | h | h <;> subst h <;> rfl

theorem preview_merge_trace_queries (env : Env) (b p : String) :
    ∀ c ∈ (preview_merge env b p).2, isMutating c = false := by
  intro c hc
  unfold preview_merge at hc
  split at hc
  · simp at hc
    rcases hc with h | h <;> subst h <;> rfl
  · simp at hc
    subst hc
    rfl

/-! ## Claim C4 -/

/-- Claim C4: a `merge_branch` invocation with `preview=True` on a branch
with a resolvable worktree and parent issues only query commands — in
particular no backup creation, checkout or merge — and returns the
preview outcome before any of those steps, whether the user confirms or
declines the preview prompt. -/
theorem merge_branch_preview_no_mutation (env : Env) (b : String) (cleanup pu : Bool)
    (wts : List Wt) (target : Wt) (parent : String)
    (hl : get_worktrees env = .ok wts)
    (ht : findTarget b wts = some target)
    (hp : (get_parent_branch env target).1 = some parent) :
    (∀ c ∈ (merge_branch env b cleanup true pu).trace, isMutating c = false)
    ∧ (merge_branch env b cleanup true pu).result
        = some (preview_merge env b parent).1 := by
  have hrun : merge_branch env b cleanup true pu
      = ⟨some (preview_merge env b parent).1,
          .worktreeList :: ((get_parent_branch env target).2 ++ (preview_merge env b parent).2),
          []⟩ := by
    simp [merge_branch, hl, ht, hp]
  refine ⟨?_, by rw [hrun]⟩
  rw [hrun]
  intro c hc
  simp only [List.mem_cons, List.mem_append] at hc
  rcases hc with h | h | h
  · subst h; rfl
  · exact get_parent_branch_trace_queries env target c h
  · exact preview_merge_trace_queries env b parent c h

theorem merge_branch_preview_no_mutation_witness :
    (merge_branch envTwo "feat" true true true).trace
        = [.worktreeList, .configGet "feat", .showRef "main", .logRange "main" "feat"]
    ∧ (merge_branch envTwo "feat" true true true).result = some true :=
  ⟨by decide,
    (merge_branch_preview_no_mutation envTwo "feat" true true [wtRoot, wtFeat] wtFeat
        "main" (by rfl) (by decide) (by decide)).2.trans (by decide)⟩

/-! ## Claim C2 -/

theorem rollback_merge_reset_ref (rr dr : Bool) (ref : String) :
    ∀ r, Cmd.resetHard r ∈ (rollback_merge rr dr ref).1 → r = ref := by
  intro r hr
  unfold rollback_merge at hr
  split_ifs at hr <;> simp_all

theorem conflictLoop_reset_ref (ck rr dr : Bool) (ref : String) :
    ∀ (script : List IterStep) (r : String),
      Cmd.resetHard r ∈ (conflictLoop ck rr dr ref script).trace → r = ref := by
  intro script
  induction script with
  | nil => intro r hr; simp [conflictLoop] at hr
  | cons s rest ih =>
    intro r hr
    simp only [conflictLoop] at hr
    cases hch : s.choice with
    | tool =>
      simp only [hch] at hr
      split_ifs at hr
      · simp at hr
      · simp only [List.mem_append, List.mem_cons] at hr
        rcases hr with (h | h | h) | h
        · cases h
        · cases h
        · simp at h
        · exact rollback_merge_reset_ref rr dr ref r h
      · simp at hr
      · simp at hr
    | manual =>
      simp only [hch] at hr
      split_ifs at hr
      · simp only [List.mem_append, List.mem_cons] at hr
        rcases hr with (h | h | h) | h
        · cases h
        · cases h
        · simp at h
        · exact ih r h
      · simp at hr
      · simp at hr
      · simp at hr
    | abort =>
      simp only [hch, List.mem_cons] at hr
      rcases hr with h | h
      · cases h
      · exact rollback_merge_reset_ref rr dr ref r h
    | showDiff =>
      simp only [hch, List.mem_cons] at hr
      rcases hr with h | h
      · cases h
      · exact ih r h

theorem handle_conflicts_reset_ref (env : Env) (ref : String) (r : String)
    (hr : Cmd.resetHard r ∈ (handle_merge_conflicts env ref).trace) : r = ref := by
  simp only [handle_merge_conflicts, List.mem_cons] at hr
  rcases hr with h | h
  · cases h
  · exact conflictLoop_reset_ref env.commitOk env.resetRaises env.deleteBackupRaises ref
      env.script r h

theorem mergePhase_reset_ref (env : Env) (b parent ref wtPath : String)
    (cleanup pu : Bool) :
    ∀ r, Cmd.resetHard r ∈ (mergePhase env b parent ref wtPath cleanup pu).trace
      → r = ref := by
  intro r hr
  unfold mergePhase at hr
  cases hco : env.checkoutOk with
  | false => simp [hco] at hr
  | true =>
    cases hm : env.mergeOk with
    | true =>
      -- clean success: cleanup / push traces contain no reset
      cases cleanup <;> cases pu <;> simp [hco, hm, cleanup_merged_branch] at hr
    | false =>
      cases hcm : conflictMarkers env with
      | true =>
        simp [hco, hm, hcm] at hr
        exact handle_conflicts_reset_ref env ref r hr
      | false =>
        simp [hco, hm, hcm] at hr
        exact rollback_merge_reset_ref env.resetRaises env.deleteBackupRaises ref r hr

/-- Claim C2: when `merge_branch` proceeds past preview, the backup ref
`backup/<branch>-<timestamp>` is created at the parent tip before any
state-mutating command (everything preceding it in the trace is a query),
the operation is blind to whether the backup-creation command succeeded
(the run is identical for a failing backup command), and any later
rollback reset targets exactly the recorded backup ref. -/
theorem merge_branch_backup_before_mutation (env : Env) (b : String)
    (cleanup pu : Bool) (wts : List Wt) (target : Wt) (parent : String)
    (hl : get_worktrees env = .ok wts)
    (ht : findTarget b wts = some target)
    (hp : (get_parent_branch env target).1 = some parent) :
    (∃ pre post,
      (merge_branch env b cleanup false pu).trace
        = pre ++ .branchCreate ("backup/" ++ b ++ "-" ++ env.timestamp) parent :: post
      ∧ ∀ c ∈ pre, isMutating c = false)
    ∧ merge_branch env b cleanup false pu
        = merge_branch { env with backupOk := false } b cleanup false pu
    ∧ (∀ r, Cmd.resetHard r ∈ (merge_branch env b cleanup false pu).trace
        → r = "backup/" ++ b ++ "-" ++ env.timestamp) := by
  have hrun : merge_branch env b cleanup false pu
      = ⟨(mergePhase env b parent ("backup/" ++ b ++ "-" ++ env.timestamp) target.path
            cleanup pu).result,
          .worktreeList :: ((get_parent_branch env target).2
            ++ (.branchCreate ("backup/" ++ b ++ "-" ++ env.timestamp) parent
                :: (mergePhase env b parent ("backup/" ++ b ++ "-" ++ env.timestamp)
                      target.path cleanup pu).trace)),
          (mergePhase env b parent ("backup/" ++ b ++ "-" ++ env.timestamp) target.path
            cleanup pu).warns⟩ := by
    simp [merge_branch, hl, ht, hp]
  refine ⟨⟨.worktreeList :: (get_parent_branch env target).2,
      (mergePhase env b parent ("backup/" ++ b ++ "-" ++ env.timestamp) target.path
        cleanup pu).trace, ?_, ?_⟩, ?_, ?_⟩
  · rw [hrun]
    rfl
  · intro c hc
    simp only [List.mem_cons] at hc
    rcases hc with h | h
    · subst h; rfl
    · exact get_parent_branch_trace_queries env target c h
  · clear hrun hl ht hp
    cases env
    rfl
  · intro r hr
    rw [hrun] at hr
    simp only [List.mem_cons, List.mem_append] at hr
    rcases hr with h | h | h | h
    · cases h
    · have := get_parent_branch_trace_queries env target _ h
      simp [isMutating] at this
    · cases h
    · exact mergePhase_reset_ref env b parent _ target.path cleanup pu r h

theorem merge_branch_backup_before_mutation_witness :
    (∃ pre post,
      (merge_branch envTwo "feat" true false true).trace
        = pre ++ .branchCreate "backup/feat-20240101-000000" "main" :: post
      ∧ ∀ c ∈ pre, isMutating c = false)
    ∧ merge_branch envTwo "feat" true false true
        = merge_branch { envTwo with backupOk := false } "feat" true false true :=
  ⟨(merge_branch_backup_before_mutation envTwo "feat" true true [wtRoot, wtFeat] wtFeat
      "main" (by rfl) (by decide) (by decide)).1,
    (merge_branch_backup_before_mutation envTwo "feat" true true [wtRoot, wtFeat] wtFeat
      "main" (by rfl) (by decide) (by decide)).2.1⟩

/-! ## Claim C3 -/

/-- Claim C3: when the merge command fails without conflict markers in
its output, `merge_branch` reports the failure, rolls back (reset of the
parent to the backup ref followed by deletion of the backup ref) and
returns False; if the rollback commands themselves raise, the failure is
reported as a manual-recovery instruction naming the backup ref instead
of being swallowed. -/
theorem merge_branch_plain_failure_rollback (env : Env) (b : String)
    (cleanup pu : Bool) (wts : List Wt) (target : Wt) (parent : String)
    (hl : get_worktrees env = .ok wts)
    (ht : findTarget b wts = some target)
    (hp : (get_parent_branch env target).1 = some parent)
    (hco : env.checkoutOk = true)
    (hm : env.mergeOk = false)
    (hcm : conflictMarkers env = false) :
    (merge_branch env b cleanup false pu).result = some false
    ∧ Warn.mergeFailed ∈ (merge_branch env b cleanup false pu).warns
    ∧ (env.resetRaises = false → env.deleteBackupRaises = false →
        Cmd.resetHard ("backup/" ++ b ++ "-" ++ env.timestamp)
            ∈ (merge_branch env b cleanup false pu).trace
        ∧ Cmd.branchDelete ("backup/" ++ b ++ "-" ++ env.timestamp)
            ∈ (merge_branch env b cleanup false pu).trace)
    ∧ (env.resetRaises = true ∨ env.deleteBackupRaises = true →
        Warn.manualRollback ("backup/" ++ b ++ "-" ++ env.timestamp)
            ∈ (merge_branch env b cleanup false pu).warns) := by
  have hrun : merge_branch env b cleanup false pu
      = ⟨some false,
          .worktreeList :: ((get_parent_branch env target).2
            ++ (.branchCreate ("backup/" ++ b ++ "-" ++ env.timestamp) parent
                :: .checkout parent :: .mergeNoFF b
                :: (rollback_merge env.resetRaises env.deleteBackupRaises
                      ("backup/" ++ b ++ "-" ++ env.timestamp)).1)),
          .mergeFailed :: (rollback_merge env.resetRaises env.deleteBackupRaises
              ("backup/" ++ b ++ "-" ++ env.timestamp)).2⟩ := by
    simp [merge_branch, hl, ht, hp, mergePhase, hco, hm, hcm]
  rw [hrun]
  refine ⟨rfl, by simp, ?_, ?_⟩
  · intro hrr hdr
    simp [rollback_merge, hrr, hdr]
  · intro hor
    rcases hor with h | h
    · simp [rollback_merge, h]
    · cases hrr : env.resetRaises <;> simp [rollback_merge, hrr, h]

/-- Environment in which the merge fails with no conflict markers and
the rollback reset raises. -/
def envPlainFail : Env :=
  { envTwo with
    mergeOk := false
    mergeStderr := "fatal: refusing to merge"
    resetRaises := true }

theorem merge_branch_plain_failure_rollback_witness :
    (merge_branch envPlainFail "feat" true false true).result = some false
    ∧ Warn.manualRollback "backup/feat-20240101-000000"
        ∈ (merge_branch envPlainFail "feat" true false true).warns :=
  ⟨(merge_branch_plain_failure_rollback envPlainFail "feat" true true [wtRoot, wtFeat]
      wtFeat "main" (by rfl) (by decide) (by decide) rfl rfl (by decide)).1,
    (merge_branch_plain_failure_rollback envPlainFail "feat" true true [wtRoot, wtFeat]
      wtFeat "main" (by rfl) (by decide) (by decide) rfl rfl (by decide)).2.2.2
      (Or.inl (by decide))⟩

/-! ## Claim C5 -/

/-- Claim C5: a conflict-free successful merge goes through `git merge
--no-ff` on the checked-out parent, deletes the backup ref, and — when
`cleanup` is requested — removes the worktree (forced) and deletes the
source branch; both cleanup commands are always issued (a failure of one
never suppresses the other) and each failure is reported as a warning. -/
theorem merge_branch_success_cleanup (env : Env) (b : String)
    (cleanup pu : Bool) (wts : List Wt) (target : Wt) (parent : String)
    (hl : get_worktrees env = .ok wts)
    (ht : findTarget b wts = some target)
    (hp : (get_parent_branch env target).1 = some parent)
    (hco : env.checkoutOk = true)
    (hm : env.mergeOk = true) :
    (merge_branch env b cleanup false pu).result = some true
    ∧ Cmd.checkout parent ∈ (merge_branch env b cleanup false pu).trace
    ∧ Cmd.mergeNoFF b ∈ (merge_branch env b cleanup false pu).trace
    ∧ Cmd.branchDelete ("backup/" ++ b ++ "-" ++ env.timestamp)
        ∈ (merge_branch env b cleanup false pu).trace
    ∧ (cleanup = true →
        Cmd.worktreeRemove target.path ∈ (merge_branch env b cleanup false pu).trace
        ∧ Cmd.branchDelete b ∈ (merge_branch env b cleanup false pu).trace)
    ∧ (cleanup = true → env.wtRemoveOk target.path = false →
        Warn.worktreeRemoveFailed ∈ (merge_branch env b cleanup false pu).warns)
    ∧ (cleanup = true → env.branchDeleteOk b = false →
        Warn.branchDeleteFailed ∈ (merge_branch env b cleanup false pu).warns) := by
  refine ⟨?_, ?_, ?_, ?_, ?_, ?_, ?_⟩
  · cases cleanup <;> cases pu <;>
      simp [merge_branch, hl, ht, hp, mergePhase, hco, hm]
  · cases cleanup <;> cases pu <;>
      simp [merge_branch, hl, ht, hp, mergePhase, hco, hm, cleanup_merged_branch]
  · cases cleanup <;> cases pu <;>
      simp [merge_branch, hl, ht, hp, mergePhase, hco, hm, cleanup_merged_branch]
  · cases cleanup <;> cases pu <;>
      simp [merge_branch, hl, ht, hp, mergePhase, hco, hm, cleanup_merged_branch]
  · intro hcl
    subst hcl
    constructor <;> cases pu <;>
      simp [merge_branch, hl, ht, hp, mergePhase, hco, hm, cleanup_merged_branch]
  · intro hcl hw
    subst hcl
    cases pu <;>
      simp [merge_branch, hl, ht, hp, mergePhase, hco, hm, cleanup_merged_branch, hw]
  · intro hcl hw
    subst hcl
    cases pu <;>
      simp [merge_branch, hl, ht, hp, mergePhase, hco, hm, cleanup_merged_branch, hw]

/-- Environment identical to `envTwo` except that the worktree-removal
command fails. -/
def envRemoveFails : Env := { envTwo with wtRemoveOk := fun _ => false }

theorem merge_branch_success_cleanup_witness :
    (merge_branch envTwo "feat" true false true).result = some true
    ∧ Cmd.mergeNoFF "feat" ∈ (merge_branch envTwo "feat" true false true).trace
    ∧ Cmd.branchDelete "backup/feat-20240101-000000"
        ∈ (merge_branch envTwo "feat" true false true).trace
    ∧ Cmd.worktreeRemove "/repo/worktrees/dirname"
        ∈ (merge_branch envTwo "feat" true false true).trace
    ∧ Cmd.branchDelete "feat" ∈ (merge_branch envTwo "feat" true false true).trace
    ∧ Warn.worktreeRemoveFailed ∈ (merge_branch envRemoveFails "feat" true false true).warns
    ∧ Cmd.branchDelete "feat" ∈ (merge_branch envRemoveFails "feat" true false true).trace :=
  ⟨(merge_branch_success_cleanup envTwo "feat" true true [wtRoot, wtFeat] wtFeat "main"
      (by rfl) (by decide) (by decide) rfl rfl).1,
    (merge_branch_success_cleanup envTwo "feat" true true [wtRoot, wtFeat] wtFeat "main"
      (by rfl) (by decide) (by decide) rfl rfl).2.2.1,
    (merge_branch_success_cleanup envTwo "feat" true true [wtRoot, wtFeat] wtFeat "main"
      (by rfl) (by decide) (by decide) rfl rfl).2.2.2.1,
    ((merge_branch_success_cleanup envTwo "feat" true true [wtRoot, wtFeat] wtFeat "main"
      (by rfl) (by decide) (by decide) rfl rfl).2.2.2.2.1 rfl).1,
    ((merge_branch_success_cleanup envTwo "feat" true true [wtRoot, wtFeat] wtFeat "main"
      (by rfl) (by decide) (by decide) rfl rfl).2.2.2.2.1 rfl).2,
    (merge_branch_success_cleanup envRemoveFails "feat" true true [wtRoot, wtFeat] wtFeat
      "main" (by rfl) (by decide) (by decide) rfl rfl).2.2.2.2.2.1 rfl rfl,
    ((merge_branch_success_cleanup envRemoveFails "feat" true true [wtRoot, wtFeat] wtFeat
      "main" (by rfl) (by decide) (by decide) rfl rfl).2.2.2.2.1 rfl).2⟩

/-! ## Claim C1 -/

/-- Environment producing a conflicted merge where the user picks the
merge-tool option and the tool fails: the loop's trailing `break` then
returns False with the merge still in progress. -/
def envConflict : Env :=
  { envTwo with
    mergeOk := false
    mergeStdout := "CONFLICT (content): Merge conflict in app.py"
    script := [{ choice := .tool, mergetoolOk := false }] }

/-- Claim C1 is false on the code: with a conflicted merge, choosing the
merge-tool option when the tool fails makes `_handle_merge_conflicts`
hit the trailing `break` of its `while` loop and return False — no
`merge --abort`, no reset to the backup and no conflict commit follow the
conflicted merge in the trace, so the repository is left with the merge
in progress. -/
theorem merge_branch_left_mid_conflict_counterexample :
    conflictMarkers envConflict = true
    ∧ (merge_branch envConflict "feat" true false true).result = some false
    ∧ Cmd.mergeNoFF "feat" ∈ (merge_branch envConflict "feat" true false true).trace
    ∧ mergeSettled (merge_branch envConflict "feat" true false true).trace = false :=
  ⟨by decide, by decide, by decide, by decide⟩

theorem conflictLoop_true_evidence (ck rr dr : Bool) (ref : String) :
    ∀ script, (conflictLoop ck rr dr ref script).result = some true →
      Cmd.commitNoEdit ∈ (conflictLoop ck rr dr ref script).trace
      ∨ Cmd.statusQuery ∈ (conflictLoop ck rr dr ref script).trace := by
  intro script
  induction script with
  | nil => intro h; simp [conflictLoop] at h
  | cons s rest ih =>
    intro h
    simp only [conflictLoop] at h ⊢
    cases hch : s.choice with
    | tool =>
      simp only [hch] at h ⊢
      split_ifs at h ⊢ <;> simp_all
    | manual =>
      simp only [hch] at h ⊢
      split_ifs at h ⊢ <;> simp_all
    | abort =>
      simp only [hch] at h
      simp at h
    | showDiff =>
      simp only [hch] at h ⊢
      rcases ih h with hm | hm
      · exact Or.inl (List.mem_cons_of_mem _ hm)
      · exact Or.inr (List.mem_cons_of_mem _ hm)

theorem conflictLoop_abort_rollback (ck rr dr : Bool) (ref : String) :
    ∀ script, Cmd.mergeAbort ∈ (conflictLoop ck rr dr ref script).trace →
      Cmd.resetHard ref ∈ (conflictLoop ck rr dr ref script).trace
      ∨ Warn.manualRollback ref ∈ (conflictLoop ck rr dr ref script).warns := by
  intro script
  induction script with
  | nil => intro h; simp [conflictLoop] at h
  | cons s rest ih =>
    intro h
    simp only [conflictLoop] at h ⊢
    cases hch : s.choice with
    | tool =>
      simp only [hch] at h ⊢
      split_ifs at h ⊢ <;>
        cases hrr : rr <;> cases hdr : dr <;> simp_all [rollback_merge]
    | manual =>
      simp only [hch] at h ⊢
      split_ifs at h ⊢ <;> simp_all
    | abort =>
      simp only [hch] at h ⊢
      cases hrr : rr <;> cases hdr : dr <;> simp [rollback_merge, hrr, hdr]
    | showDiff =>
      simp only [hch] at h ⊢
      simp only [List.mem_cons] at h
      rcases h with h | h
      · cases h
      · rcases ih h with hm | hm
        · exact Or.inl (List.mem_cons_of_mem _ hm)
        · exact Or.inr hm

/-- Claim C1 amended: after a conflicted merge, `merge_branch` returns
True only when a resolution path confirmed completion (a conflict commit
was issued, or the shell path's status check ran); and whenever the abort
option was taken (`merge --abort` appears in the trace) the parent is
reset to the backup ref, or a manual-recovery warning naming the backup
ref is reported.  (By the counterexample, the operation can nevertheless
return False with the merge still in progress, e.g. on a failing merge
tool or a declined confirmation.) -/
theorem merge_branch_conflict_exit_modes (env : Env) (b : String)
    (cleanup pu : Bool) (wts : List Wt) (target : Wt) (parent : String)
    (hl : get_worktrees env = .ok wts)
    (ht : findTarget b wts = some target)
    (hp : (get_parent_branch env target).1 = some parent)
    (hco : env.checkoutOk = true)
    (hm : env.mergeOk = false)
    (hcm : conflictMarkers env = true) :
    ((merge_branch env b cleanup false pu).result = some true →
      Cmd.commitNoEdit ∈ (merge_branch env b cleanup false pu).trace
      ∨ Cmd.statusQuery ∈ (merge_branch env b cleanup false pu).trace)
    ∧ (Cmd.mergeAbort ∈ (merge_branch env b cleanup false pu).trace →
      Cmd.resetHard ("backup/" ++ b ++ "-" ++ env.timestamp)
          ∈ (merge_branch env b cleanup false pu).trace
      ∨ Warn.manualRollback ("backup/" ++ b ++ "-" ++ env.timestamp)
          ∈ (merge_branch env b cleanup false pu).warns) := by
  have hrun : merge_branch env b cleanup false pu
      = ⟨(conflictLoop env.commitOk env.resetRaises env.deleteBackupRaises
            ("backup/" ++ b ++ "-" ++ env.timestamp) env.script).result,
          .worktreeList :: ((get_parent_branch env target).2
            ++ (.branchCreate ("backup/" ++ b ++ "-" ++ env.timestamp) parent
                :: .checkout parent :: .mergeNoFF b :: .conflictFilesQuery
                :: (conflictLoop env.commitOk env.resetRaises env.deleteBackupRaises
                      ("backup/" ++ b ++ "-" ++ env.timestamp) env.script).trace)),
          (conflictLoop env.commitOk env.resetRaises env.deleteBackupRaises
            ("backup/" ++ b ++ "-" ++ env.timestamp) env.script).warns⟩ := by
    simp [merge_branch, hl, ht, hp, mergePhase, hco, hm, hcm, handle_merge_conflicts]
  rw [hrun]
  constructor
  · intro h
    rcases conflictLoop_true_evidence env.commitOk env.resetRaises env.deleteBackupRaises
        ("backup/" ++ b ++ "-" ++ env.timestamp) env.script h with hm' | hm'
    · exact Or.inl (by simp [hm'])
    · exact Or.inr (by simp [hm'])
  · intro h
    simp only [List.mem_cons, List.mem_append] at h
    rcases h with h | h | h | h | h | h | h
    · cases h
    · have := get_parent_branch_trace_queries env target _ h
      simp [isMutating] at this
    · cases h
    · cases h
    · cases h
    · cases h
    · rcases conflictLoop_abort_rollback env.commitOk env.resetRaises
          env.deleteBackupRaises ("backup/" ++ b ++ "-" ++ env.timestamp) env.script h
        with hm' | hm'
      · exact Or.inl (by simp [hm'])
      · exact Or.inr hm'

/-- Environment producing a conflicted merge where the user aborts. -/
def envAbortChoice : Env :=
  { envConflict with script := [{ choice := .abort }] }

/-- Environment producing a conflicted merge resolved via the merge tool
and a successful conflict commit. -/
def envToolResolve : Env :=
  { envConflict with script := [{ choice := .tool }] }

theorem merge_branch_conflict_exit_modes_witness :
    (Cmd.commitNoEdit ∈ (merge_branch envToolResolve "feat" true false true).trace
      ∨ Cmd.statusQuery ∈ (merge_branch envToolResolve "feat" true false true).trace)
    ∧ (Cmd.resetHard "backup/feat-20240101-000000"
          ∈ (merge_branch envAbortChoice "feat" true false true).trace
      ∨ Warn.manualRollback "backup/feat-20240101-000000"
          ∈ (merge_branch envAbortChoice "feat" true false true).warns) :=
  ⟨(merge_branch_conflict_exit_modes envToolResolve "feat" true true [wtRoot, wtFeat]
      wtFeat "main" (by rfl) (by decide) (by decide) rfl rfl (by decide)).1 (by decide),
    (merge_branch_conflict_exit_modes envAbortChoice "feat" true true [wtRoot, wtFeat]
      wtFeat "main" (by rfl) (by decide) (by decide) rfl rfl (by decide)).2 (by decide)⟩

/-! ## Claim C7 -/

theorem shipScan_ok (env : Env) :
    ∀ wts : List Wt, (∀ wt ∈ wts, revCountParses env wt = true) →
      ∃ tr, shipScan env wts
          = .ok ((wts.filter (shipReady env)).map fun wt => wt.branch.getD "", tr)
        ∧ ∀ c ∈ tr, isMutating c = false := by
  intro wts
  induction wts with
  | nil => intro _; exact ⟨[], rfl, by simp⟩
  | cons wt rest ih =>
    intro hall
    obtain ⟨tr, htr, hq⟩ := ih fun w hw => hall w (List.mem_cons_of_mem _ hw)
    have hwt := hall wt (List.mem_cons_self _ _)
    cases hg : (wt.branch.getD "" ≠ "" && wt.branch.getD "" ≠ "main"
        && wt.branch.getD "" ≠ "master" && !wt.detached) with
    | false =>
      have hsr : shipReady env wt = false := by
        simp only [shipReady, hg, Bool.false_and]
      refine ⟨tr, ?_, hq⟩
      simp only [shipScan]
      rw [hg]
      simp [htr, hsr]
    | true =>
      cases hpp : (get_parent_branch env wt).1 with
      | none =>
        have hsr : shipReady env wt = false := by simp [shipReady, hpp]
        refine ⟨(get_parent_branch env wt).2 ++ tr, ?_, ?_⟩
        · simp only [shipScan]
          rw [hg, hpp]
          simp [htr, hsr]
        · intro c hc
          rcases List.mem_append.mp hc with h | h
          · exact get_parent_branch_trace_queries env wt c h
          · exact hq c h
      | some parent =>
        cases hrv : env.revListOk parent (wt.branch.getD "") with
        | false =>
          have hsr : shipReady env wt = false := by simp [shipReady, hpp, hrv]
          refine ⟨(get_parent_branch env wt).2
              ++ (.revListCount parent (wt.branch.getD "") :: tr), ?_, ?_⟩
          · simp only [shipScan]
            rw [hg, hpp]
            simp [hrv, htr, hsr]
          · intro c hc
            rcases List.mem_append.mp hc with h | h
            · exact get_parent_branch_trace_queries env wt c h
            · rcases List.mem_cons.mp h with h' | h'
              · subst h'; rfl
              · exact hq c h'
        | true =>
          have hps : (pyToInt (pyStrip (env.revListOut parent
              (wt.branch.getD "")))).isSome = true := by
            have h' := hwt
            simp [revCountParses, hpp, hrv] at h'
            exact h'
          obtain ⟨n, hn⟩ := Option.isSome_iff_exists.mp hps
          by_cases hn0 : n > 0
          · have hsr : shipReady env wt = true := by
              simp only [shipReady, hpp]
              rw [hg]
              simp [hrv, hn, hn0]
            refine ⟨(get_parent_branch env wt).2
                ++ (.revListCount parent (wt.branch.getD "") :: tr), ?_, ?_⟩
            · simp only [shipScan]
              rw [hg, hpp]
              simp [hrv, hn, htr, hsr, hn0]
            · intro c hc
              rcases List.mem_append.mp hc with h | h
              · exact get_parent_branch_trace_queries env wt c h
              · rcases List.mem_cons.mp h with h' | h'
                · subst h'; rfl
                · exact hq c h'
          · have hsr : shipReady env wt = false := by
              simp [shipReady, hpp, hrv, hn, hn0]
            refine ⟨(get_parent_branch env wt).2
                ++ (.revListCount parent (wt.branch.getD "") :: tr), ?_, ?_⟩
            · simp only [shipScan]
              rw [hg, hpp]
              simp [hrv, hn, htr, hsr, hn0]
            · intro c hc
              rcases List.mem_append.mp hc with h | h
              · exact get_parent_branch_trace_queries env wt c h
              · rcases List.mem_cons.mp h with h' | h'
                · subst h'; rfl
                · exact hq c h'

/-- Claim C7: `ship_all(dry_run=True)` returns exactly the branches that
have an active worktree, are not trunk (`main`/`master`), are not
detached, have a resolvable parent, and are strictly ahead of that
parent by the rev-list count — and it issues only query commands. -/
theorem ship_all_dry_exact (env : Env) (wts : List Wt)
    (hl : get_worktrees env = .ok wts)
    (hok : ∀ wt ∈ wts, revCountParses env wt = true) :
    (ship_all_dry env).1
        = (wts.filter (shipReady env)).map (fun wt => wt.branch.getD "")
    ∧ ∀ c ∈ (ship_all_dry env).2, isMutating c = false := by
  obtain ⟨tr, htr, hq⟩ := shipScan_ok env wts hok
  have hrun : ship_all_dry env
      = ((wts.filter (shipReady env)).map fun wt => wt.branch.getD "",
          .worktreeList :: tr) := by
    simp [ship_all_dry, hl, htr]
  rw [hrun]
  refine ⟨rfl, ?_⟩
  intro c hc
  rcases List.mem_cons.mp hc with h | h
  · subst h; rfl
  · exact hq c h

/-- Environment whose feature worktree is three commits ahead of `main`. -/
def envShip : Env := { envTwo with revListOut := fun _ _ => "3" }

theorem ship_all_dry_exact_witness :
    (ship_all_dry envShip).1 = ["feat"]
    ∧ (ship_all_dry envShip).2
        = [.worktreeList, .configGet "feat", .showRef "main",
            .revListCount "main" "feat"] :=
  ⟨(ship_all_dry_exact envShip [wtRoot, wtFeat] (by rfl) (by decide)).1.trans (by decide),
    by decide⟩

/-! ## Claim C8 -/

/-- Claim C8: `auto_clean(dry_run=True)` issues only query commands (so
the branch list and worktree set are untouched) and returns exactly the
names of merged branches — excluding `main`/`master` — that have an
active worktree. -/
theorem auto_clean_dry_frame (env : Env) (wts : List Wt)
    (hl : get_worktrees env = .ok wts) :
    (∀ c ∈ (auto_clean_dry env).2, isMutating c = false)
    ∧ (env.mergedOk = true →
        ∀ b, b ∈ (auto_clean_dry env).1 ↔
          (b ∈ mergedBranches env.mergedStdout ∧ ∃ wt ∈ wts, wt.branch = some b)) := by
  constructor
  · intro c hc
    unfold auto_clean_dry at hc
    cases hmo : env.mergedOk with
    | false => simp [hmo] at hc; subst hc; rfl
    | true =>
      cases hme : (mergedBranches env.mergedStdout).isEmpty with
      | true => simp [hmo, hme] at hc; subst hc; rfl
      | false =>
        simp [hmo, hme, hl] at hc
        rcases hc with h | h <;> subst h <;> rfl
  · intro hmo b
    cases hme : (mergedBranches env.mergedStdout).isEmpty with
    | true =>
      have hnil : mergedBranches env.mergedStdout = [] := by
        simpa using hme
      simp [auto_clean_dry, hmo, hme, hnil]
    | false =>
      have hval : (auto_clean_dry env).1
          = (mergedBranches env.mergedStdout).flatMap
              (fun b' => (wts.filter fun wt => wt.branch == some b').map fun _ => b') := by
        simp [auto_clean_dry, hmo, hme, hl]
      rw [hval]
      simp only [List.mem_flatMap, List.mem_map, List.mem_filter]
      constructor
      · rintro ⟨b', hb', wt, ⟨hwtm, hbr⟩, rfl⟩
        exact ⟨hb', wt, hwtm, by simpa using hbr⟩
      · rintro ⟨hbm, wt, hwtm, hbr⟩
        exact ⟨b, hbm, wt, ⟨hwtm, by simp [hbr]⟩, rfl⟩

/-- Environment whose merged-branch listing shows `feat` (and the
current `main`). -/
def envClean : Env := { envTwo with mergedStdout := "  feat\n* main" }

theorem auto_clean_dry_frame_witness :
    "feat" ∈ (auto_clean_dry envClean).1
    ∧ (auto_clean_dry envClean).2 = [.branchMerged, .worktreeList] :=
  ⟨((auto_clean_dry_frame envClean [wtRoot, wtFeat] (by rfl)).2 rfl "feat").mpr
      ⟨by decide, wtFeat, by decide, by decide⟩,
    by decide⟩

end DevFlow
